import Mathlib

/-!
# hexapod-js: command execution engine, verified model

A shallow embedding of the hexapod-js command execution engine and its
binary packet codec, with theorems settling the specified properties.

The repository carries several variants of the same engine:

* the browser variant (`hexapod-web.js`, second document of
  `src/lib/hexapod.js`), whose 22-byte packet with a two-byte big-endian
  duration is the canonical wire layout adopted by the spec, and whose
  scheduler (`pushCmd` / `runStack` / `processCmd` with the
  `duration >= 0` timer guard) is modelled by `step`;
* the Node variant at the top of `src/lib/hexapod.js`, whose `connect`
  (lines 106-132) is modelled by `connectTCP` on `ConnState`;
* the Node variant `src/unnamed/part_000`, whose `disconnect`
  (lines 150-159) and scheduler (`duration > 0` timer guard) are
  modelled by the `node*` definitions on `NodeState`.

JavaScript numbers are modelled as `ℚ` where fractional values actually
flow (durations), and as `ℤ` for the integer-valued packet fields; the
`Uint8Array` element coercion (ToUint8: truncate toward zero, then
reduce modulo 256) is modelled by `ratTrunc`, `byteOfInt`, `byteOfRat`.
-/

/-- Truncation toward zero of a rational, as JavaScript `~~x` and the
integer-truncation step of ToUint8 perform: floor for nonnegative
arguments, ceiling for negative ones. -/
def ratTrunc (q : ℚ) : ℤ :=
  if 0 ≤ q then ⌊q⌋ else ⌈q⌉

/-- JavaScript ToUint8 applied to an integer: reduce modulo 256 into
`[0, 255]`. -/
def byteOfInt (v : ℤ) : ℕ :=
  (v % 256).toNat

/-- JavaScript ToUint8 applied to an arbitrary number: truncate toward
zero, then reduce modulo 256. -/
def byteOfRat (q : ℚ) : ℕ :=
  byteOfInt (ratTrunc q)

/-- JavaScript remainder `a % n`: same sign as the dividend,
`a - n * trunc (a / n)`. -/
def jsMod (a n : ℚ) : ℚ :=
  a - n * (ratTrunc (a / n) : ℚ)

/-- Read an unsigned byte back as a signed (two's-complement) value in
`[-128, 127]`. -/
def asSigned (b : ℕ) : ℤ :=
  if b < 128 then (b : ℤ) else (b : ℤ) - 256

theorem ratTrunc_natCast (m : ℕ) : ratTrunc (m : ℚ) = (m : ℤ) := by
  rw [ratTrunc, if_pos (by positivity)]
  exact_mod_cast Int.floor_natCast m

theorem ratTrunc_nat_div_256 (n : ℕ) :
    ratTrunc ((n : ℚ) / 256) = ((n / 256 : ℕ) : ℤ) := by
  rw [ratTrunc, if_pos (by positivity)]
  have h : ((n : ℚ)) = ((n : ℤ) : ℚ) := by norm_cast
  have h2 : ((256 : ℚ)) = ((256 : ℕ) : ℚ) := by norm_cast
  rw [h, h2, Rat.floor_intCast_div_natCast]
  omega

theorem jsMod_natCast_256 (n : ℕ) :
    jsMod (n : ℚ) 256 = ((n % 256 : ℕ) : ℚ) := by
  rw [jsMod, ratTrunc_nat_div_256, sub_eq_iff_eq_add]
  have h : ((n % 256 + 256 * (n / 256) : ℕ) : ℚ) = (n : ℚ) := by
    rw [Nat.mod_add_div]
  push_cast at h ⊢
  have hdiv : (((n : ℤ) / 256 : ℤ) : ℚ) = ((n / 256 : ℕ) : ℚ) := by
    norm_cast
  rw [hdiv]
  linarith

theorem byteOfInt_natCast (m : ℕ) : byteOfInt (m : ℤ) = m % 256 := by
  rw [byteOfInt]
  omega

theorem byteOfRat_nat_div_256 (n : ℕ) :
    byteOfRat ((n : ℚ) / 256) = n / 256 % 256 := by
  rw [byteOfRat, ratTrunc_nat_div_256, byteOfInt_natCast]

theorem byteOfRat_jsMod_256 (n : ℕ) :
    byteOfRat (jsMod (n : ℚ) 256) = n % 256 := by
  rw [jsMod_natCast_256, byteOfRat, ratTrunc_natCast, byteOfInt_natCast]
  omega

theorem byteOfInt_int_cast (v : ℤ) (h0 : 0 ≤ v) (h1 : v < 256) :
    (byteOfInt v : ℤ) = v := by
  rw [byteOfInt]
  omega

theorem asSigned_byteOfInt (v : ℤ) (h0 : -128 ≤ v) (h1 : v < 128) :
    asSigned (byteOfInt v) = v := by
  rw [asSigned, byteOfInt]
  split <;> omega

/-- The `Packet` object of `hexapod-web.js` (`src/lib/hexapod.js`,
lines 312-336): the wire-level command frame. The scalar fields are
integer-valued in every code path; `duration` is a plain JavaScript
number and genuinely takes fractional values (for example `162.5` from
`turnRight(90)`), so it is modelled as `ℚ`. -/
structure Packet where
  power : ℤ
  angle : ℤ
  rotation : ℤ
  staticTilt : ℤ
  movingTilt : ℤ
  onOff : ℤ
  accX : ℤ
  accY : ℤ
  slidersArray : List ℤ
  duration : ℚ
deriving DecidableEq

/-- The optional `parameters` argument of the `Packet` constructor: any
subset of the fields may be supplied. -/
structure PacketParams where
  power : Option ℤ := none
  angle : Option ℤ := none
  rotation : Option ℤ := none
  staticTilt : Option ℤ := none
  movingTilt : Option ℤ := none
  onOff : Option ℤ := none
  accX : Option ℤ := none
  accY : Option ℤ := none
  slidersArray : Option (List ℤ) := none
  duration : Option ℚ := none
deriving DecidableEq

/-- The default sliders array `[50, 25, 0, 0, 0, 0, 0, 0, 0]`. -/
def defaultSliders : List ℤ := [50, 25, 0, 0, 0, 0, 0, 0, 0]

/-- The `Packet` constructor of `hexapod-web.js` (lines 312-336): a
supplied `slidersArray` whose length is not 9 is replaced by the default
(with a logged warning); fields not supplied take the defaults, with
`onOff = 1` in this variant. -/
def mkPacket (params : PacketParams) : Packet where
  power := params.power.getD 0
  angle := params.angle.getD 0
  rotation := params.rotation.getD 0
  staticTilt := params.staticTilt.getD 0
  movingTilt := params.movingTilt.getD 0
  onOff := params.onOff.getD 1
  accX := params.accX.getD 0
  accY := params.accY.getD 0
  slidersArray :=
    match params.slidersArray with
    | some l => if l.length ≠ 9 then defaultSliders else l
    | none => defaultSliders
  duration := params.duration.getD 0

/-- `new Packet()`: the neutral (all-stop) frame of the web variant. -/
def neutralPacket : Packet := mkPacket {}

/-- `Packet.prototype.getBuffer` of `hexapod-web.js`
(`src/lib/hexapod.js`, lines 338-348): a 22-byte `Uint8Array` holding
the magic `'P','K','T'`, the eight scalar fields (with `angle` divided
by 2, truncating), the 9 slider bytes at offset 11, and
`[~~(duration / 256), duration % 256]` at offset 20. Every element goes
through the `Uint8Array` ToUint8 coercion. -/
def getBuffer (p : Packet) : List ℕ :=
  [80, 75, 84,
   byteOfInt p.power, byteOfInt (p.angle.tdiv 2), byteOfInt p.rotation,
   byteOfInt p.staticTilt, byteOfInt p.movingTilt, byteOfInt p.onOff,
   byteOfInt p.accX, byteOfInt p.accY]
  ++ p.slidersArray.map byteOfInt
  ++ [byteOfRat (p.duration / 256), byteOfRat (jsMod p.duration 256)]

theorem getBuffer_duration_nat (p : Packet) (n : ℕ) (hd : p.duration = (n : ℚ)) :
    getBuffer p =
      [80, 75, 84,
       byteOfInt p.power, byteOfInt (p.angle.tdiv 2), byteOfInt p.rotation,
       byteOfInt p.staticTilt, byteOfInt p.movingTilt, byteOfInt p.onOff,
       byteOfInt p.accX, byteOfInt p.accY]
      ++ p.slidersArray.map byteOfInt
      ++ [n / 256 % 256, n % 256] := by
  rw [getBuffer, hd, byteOfRat_nat_div_256, byteOfRat_jsMod_256]

/-- A frame whose fields lie in their declared ranges: `power ∈ [0,100]`,
`angle ∈ [-180,180]`, `rotation ∈ [-100,100]`, the three flags in
`{0,1}`, `accX, accY ∈ [-40,40]`, sliders of length 9 with byte-valued
entries, and an integer `duration` in `[0, 65535]`. -/
def validPacket (p : Packet) : Prop :=
  0 ≤ p.power ∧ p.power ≤ 100 ∧
  -180 ≤ p.angle ∧ p.angle ≤ 180 ∧
  -100 ≤ p.rotation ∧ p.rotation ≤ 100 ∧
  (p.staticTilt = 0 ∨ p.staticTilt = 1) ∧
  (p.movingTilt = 0 ∨ p.movingTilt = 1) ∧
  (p.onOff = 0 ∨ p.onOff = 1) ∧
  -40 ≤ p.accX ∧ p.accX ≤ 40 ∧
  -40 ≤ p.accY ∧ p.accY ≤ 40 ∧
  p.slidersArray.length = 9 ∧
  (∀ s ∈ p.slidersArray, 0 ≤ s ∧ s ≤ 255) ∧
  ∃ n : ℕ, n ≤ 65535 ∧ p.duration = (n : ℚ)

/-- Modelled from the spec: the repository contains no `decode`
operation (the spec requires one to exist for round-trip testing, but no
source file defines it), so this is the decoder the spec's words
describe: read each field back from its fixed offset in the 22-byte
frame, doubling the angle byte and recombining the two big-endian
duration bytes. -/
def decode (bs : List ℕ) : Packet where
  power := (bs.getD 3 0 : ℤ)
  angle := 2 * asSigned (bs.getD 4 0)
  rotation := asSigned (bs.getD 5 0)
  staticTilt := (bs.getD 6 0 : ℤ)
  movingTilt := (bs.getD 7 0 : ℤ)
  onOff := (bs.getD 8 0 : ℤ)
  accX := asSigned (bs.getD 9 0)
  accY := asSigned (bs.getD 10 0)
  slidersArray := ((bs.drop 11).take 9).map (fun b => (b : ℤ))
  duration := ((256 * bs.getD 20 0 + bs.getD 21 0 : ℕ) : ℚ)

/-- The high-level commands of `hexapod-web.js` (the keys of its
`CmdEnum`, lines 389-453), with their JavaScript-number arguments. -/
inductive Cmd where
  | goForward (d : ℚ)
  | goBack (d : ℚ)
  | turnLeft (a : ℚ)
  | turnRight (a : ℚ)
  | tiltForward (t : ℚ)
  | tiltBack (t : ℚ)
  | tiltLeft (t : ℚ)
  | tiltRight (t : ℚ)
  | sendCustomPacket (p : Packet)
  | rest (t : ℚ)
deriving DecidableEq

/-- `MAX_SPEED = 13` (seconds per meter). -/
def MAX_SPEED : ℚ := 13

/-- `ROTATION_TIME = 13` (seconds per 360-degree turn). -/
def ROTATION_TIME : ℚ := 13

/-- The per-command resolution table `Hexapod.prototype.CmdEnum` of
`hexapod-web.js` (lines 389-453): each command yields the new
`currentPacket` and returns its duration in seconds. -/
def cmdEnum : Cmd → Packet × ℚ
  | .goForward d =>
      (mkPacket { power := some 100, duration := some (MAX_SPEED * d * 50) },
       MAX_SPEED * d)
  | .goBack d =>
      (mkPacket { power := some 100, angle := some 180,
                  duration := some (MAX_SPEED * d * 50) },
       MAX_SPEED * d)
  | .turnLeft a =>
      (mkPacket { rotation := some (-100),
                  duration := some (ROTATION_TIME * a / 360 * 50) },
       ROTATION_TIME * a / 360)
  | .turnRight a =>
      (mkPacket { rotation := some 100,
                  duration := some (ROTATION_TIME * a / 360 * 50) },
       ROTATION_TIME * a / 360)
  | .tiltForward t =>
      (mkPacket { staticTilt := some 1, accX := some (-30),
                  duration := some (t * 50) }, t)
  | .tiltBack t =>
      (mkPacket { staticTilt := some 1, accX := some 30,
                  duration := some (t * 50) }, t)
  | .tiltLeft t =>
      (mkPacket { staticTilt := some 1, accY := some (-30),
                  duration := some (t * 50) }, t)
  | .tiltRight t =>
      (mkPacket { staticTilt := some 1, accY := some 30,
                  duration := some (t * 50) }, t)
  | .sendCustomPacket p =>
      (p, if 0 < p.duration then p.duration / 50 else 0)
  | .rest t =>
      if 0 < t then (mkPacket { duration := some (t * 50) }, t)
      else (mkPacket {}, 0)

/-- The `robotState` values of the scheduler. -/
inductive Phase where
  | idle
  | running
deriving DecidableEq

/-- The scheduler state of `hexapod-web.js`: the observable mutable
fields, plus two ghost histories (`dispatched` records the commands in
the order `processCmd` consumed them, `enqueued` records the commands in
the order `pushCmd` received them). `timerArmed` records whether a
`setTimeout` continuation from `processCmd` is pending. -/
structure SchedState where
  robotState : Phase
  cmdStack : List Cmd
  currentPacket : Packet
  timerArmed : Bool
  dispatched : List Cmd
  enqueued : List Cmd
deriving DecidableEq

/-- One dispatch: `processCmd(this.cmdStack[0]); this.cmdStack.shift()`.
The command at the head of the stack is resolved through `cmdEnum`, the
resulting packet becomes `currentPacket`, and a duration timer is armed
exactly when the returned duration is `>= 0` (the guard of the
`setTimeout` in `hexapod-web.js` `processCmd`, line 558). -/
def dispatchOne (s : SchedState) : SchedState :=
  match s.cmdStack with
  | [] => s
  | c :: rest =>
      let pd := cmdEnum c
      { s with cmdStack := rest, currentPacket := pd.1,
               timerArmed := s.timerArmed || decide (0 ≤ pd.2),
               dispatched := s.dispatched ++ [c] }

/-- The scheduler events: `push c` is `pushCmd(c)` (append, then
`runStack`), `expire` is the firing of a pending `processCmd` timeout
(only enabled while one is armed): with an empty stack it resets to the
neutral packet and returns to idle, otherwise it dispatches the next
command. -/
inductive Event where
  | push (c : Cmd)
  | expire
deriving DecidableEq

/-- One scheduler transition of `hexapod-web.js`
(`pushCmd` / `runStack`, lines 531-544, and the `setTimeout`
continuation of `processCmd`, lines 559-577). -/
def step (s : SchedState) : Event → SchedState
  | .push c =>
      let s1 := { s with cmdStack := s.cmdStack ++ [c],
                         enqueued := s.enqueued ++ [c] }
      if s1.robotState = Phase.idle ∧ s1.cmdStack ≠ [] then
        dispatchOne { s1 with robotState := Phase.running }
      else s1
  | .expire =>
      if s.timerArmed then
        let s1 := { s with timerArmed := false }
        if s1.cmdStack = [] then
          { s1 with currentPacket := neutralPacket, robotState := Phase.idle }
        else dispatchOne s1
      else s

/-- Run a sequence of scheduler events. -/
def run (s : SchedState) (evs : List Event) : SchedState :=
  evs.foldl step s

/-- The scheduler state of a freshly constructed `Hexapod`. -/
def initState : SchedState where
  robotState := Phase.idle
  cmdStack := []
  currentPacket := neutralPacket
  timerArmed := false
  dispatched := []
  enqueued := []

/-- `Hexapod.prototype.goForward` of `hexapod-web.js` (lines 458-461):
push only when the distance is positive, otherwise warn and return. -/
def apiGoForward (d : ℚ) (s : SchedState) : SchedState :=
  if 0 < d then step s (.push (.goForward d)) else s

/-- `Hexapod.prototype.goBack` of `hexapod-web.js` (lines 466-469). -/
def apiGoBack (d : ℚ) (s : SchedState) : SchedState :=
  if 0 < d then step s (.push (.goBack d)) else s

/-- `Hexapod.prototype.turnLeft` of `hexapod-web.js` (lines 474-476):
no validation of the angle. -/
def apiTurnLeft (a : ℚ) (s : SchedState) : SchedState :=
  step s (.push (.turnLeft a))

/-- `Hexapod.prototype.turnRight` of `hexapod-web.js` (lines 481-483):
no validation of the angle. -/
def apiTurnRight (a : ℚ) (s : SchedState) : SchedState :=
  step s (.push (.turnRight a))

/-- `Hexapod.prototype.rest` of `hexapod-web.js` (lines 488-491):
`rest(0)` (and any falsy duration) pushes `rest` with argument 0; every
other duration, negative ones included, is pushed as given. -/
def apiRest (t : ℚ) (s : SchedState) : SchedState :=
  if t = 0 then step s (.push (.rest 0)) else step s (.push (.rest t))

/-- `Hexapod.prototype.tiltForward` of `hexapod-web.js` (lines 496-498):
no validation of the duration. -/
def apiTiltForward (t : ℚ) (s : SchedState) : SchedState :=
  step s (.push (.tiltForward t))

/-- `Hexapod.prototype.tiltBack` of `hexapod-web.js` (lines 503-505). -/
def apiTiltBack (t : ℚ) (s : SchedState) : SchedState :=
  step s (.push (.tiltBack t))

/-- `Hexapod.prototype.tiltLeft` of `hexapod-web.js` (lines 510-512). -/
def apiTiltLeft (t : ℚ) (s : SchedState) : SchedState :=
  step s (.push (.tiltLeft t))

/-- `Hexapod.prototype.tiltRight` of `hexapod-web.js` (lines 517-519). -/
def apiTiltRight (t : ℚ) (s : SchedState) : SchedState :=
  step s (.push (.tiltRight t))

/-- The commands of the two Node variants (their `CmdEnum` has exactly
these five entries). -/
inductive NCmd where
  | goForward (d : ℚ)
  | goBack (d : ℚ)
  | turnLeft (a : ℚ)
  | turnRight (a : ℚ)
  | rest (t : ℚ)
deriving DecidableEq

/-- The connection-related state of the Node variant at the top of
`src/lib/hexapod.js`: whether the TCP socket reported `connect`, whether
the 100 ms `intervalSender` streaming timer is running, the socket
timeout currently configured, and the command stack (cleared on a
successful connection). -/
structure ConnState where
  connected : Bool
  intervalSender : Bool
  socketTimeoutMs : Option ℕ
  cmdStack : List NCmd
deriving DecidableEq

/-- `Hexapod.prototype.connect` of the Node variant
(`src/lib/hexapod.js`, lines 106-132): a no-op when already connected;
otherwise it creates a socket with a 5000 ms timeout, initiates the
connection, and immediately (unconditionally, before any outcome is
known) starts the 100 ms `intervalSender` streaming timer. -/
def connectTCP (s : ConnState) : ConnState :=
  if s.connected then s
  else { s with socketTimeoutMs := some 5000, intervalSender := true }

/-- The socket's `connect` event handler (lines 119-123): clear the
socket timeout, mark connected, clear the command stack. -/
def onConnectSuccess (s : ConnState) : ConnState :=
  { s with socketTimeoutMs := some 0, connected := true, cmdStack := [] }

/-- The socket's `timeout` / `error` handler `connectError`
(lines 114-118): it only logs; no state changes. -/
def onConnectError (s : ConnState) : ConnState :=
  s

/-- `new Packet()` of `src/unnamed/part_000` (lines 68-92): same
constructor, but `onOff` defaults to 0 in that variant. -/
def mkPacketNode (params : PacketParams) : Packet where
  power := params.power.getD 0
  angle := params.angle.getD 0
  rotation := params.rotation.getD 0
  staticTilt := params.staticTilt.getD 0
  movingTilt := params.movingTilt.getD 0
  onOff := params.onOff.getD 0
  accX := params.accX.getD 0
  accY := params.accY.getD 0
  slidersArray :=
    match params.slidersArray with
    | some l => if l.length ≠ 9 then defaultSliders else l
    | none => defaultSliders
  duration := params.duration.getD 0

/-- The neutral frame of `src/unnamed/part_000`. -/
def neutralNode : Packet := mkPacketNode {}

/-- `Hexapod.prototype.CmdEnum` of `src/unnamed/part_000`
(lines 164-194): each command sets `currentPacket` (no `duration` field
is ever supplied in this variant) and returns its duration in
seconds. -/
def nodeCmdEnum : NCmd → Packet × ℚ
  | .goForward d => (mkPacketNode { power := some 100, angle := some 0 }, MAX_SPEED * d)
  | .goBack d => (mkPacketNode { power := some 100, angle := some 180 }, MAX_SPEED * d)
  | .turnLeft a => (mkPacketNode { rotation := some (-100) }, ROTATION_TIME * a / 360)
  | .turnRight a => (mkPacketNode { rotation := some 100 }, ROTATION_TIME * a / 360)
  | .rest t => (mkPacketNode {}, if 0 < t then t else 0)

/-- The full engine state of `src/unnamed/part_000`: connection flag,
scheduler fields, the two `setInterval` handles, the pending
`processCmd` `setTimeout` (`durationTimer`), and a ghost trace of the
frames written directly to the socket. -/
structure NodeState where
  connected : Bool
  robotState : Phase
  cmdStack : List NCmd
  currentPacket : Packet
  intervalSender : Bool
  intervalSetter : Bool
  durationTimer : Bool
  sent : List Packet
deriving DecidableEq

/-- One dispatch of `src/unnamed/part_000`
(`processCmd`, lines 262-292): resolve the head command, set
`currentPacket`, and arm the duration timer exactly when the duration is
strictly positive (the `duration > 0` guard on line 269). -/
def nodeDispatchOne (s : NodeState) : NodeState :=
  match s.cmdStack with
  | [] => s
  | c :: rest =>
      let pd := nodeCmdEnum c
      { s with cmdStack := rest, currentPacket := pd.1,
               durationTimer := s.durationTimer || decide (0 < pd.2) }

/-- `pushCmd` / `runStack` of `src/unnamed/part_000`
(lines 233-260). -/
def nodePush (c : NCmd) (s : NodeState) : NodeState :=
  let s1 := { s with cmdStack := s.cmdStack ++ [c] }
  if s1.robotState = Phase.idle ∧ s1.cmdStack ≠ [] then
    nodeDispatchOne { s1 with robotState := Phase.running }
  else s1

/-- `Hexapod.prototype.disconnect` of `src/unnamed/part_000`
(lines 150-159): clear both intervals, reset `currentPacket` to the
neutral frame, write that final neutral frame to the socket, end the
socket, mark disconnected and idle, and empty the command stack. The
pending `processCmd` duration `setTimeout` is NOT cleared (no
`clearTimeout` exists anywhere in the repository). -/
def nodeDisconnect (s : NodeState) : NodeState :=
  { s with intervalSender := false, intervalSetter := false,
           currentPacket := neutralNode,
           sent := s.sent ++ [neutralNode],
           connected := false, robotState := Phase.idle, cmdStack := [] }

/-- C1: every 22-byte frame has the fixed layout — magic `80 75 84`,
then power, angle/2 (truncating), rotation, staticTilt, movingTilt,
onOff (poweredOn), accX, accY one byte each, the 9 slider bytes, and the
big-endian duration split `high = n / 256`, `low = n % 256`; in
particular the angle bytes of `{angle: 90}` and `{angle: -180}` are 45
and (as a signed byte) -90, and duration 300 splits into bytes 1, 44. -/
theorem getBuffer_layout :
    (∀ (p : Packet) (n : ℕ), p.slidersArray.length = 9 → p.duration = (n : ℚ) →
        n < 65536 →
      (getBuffer p).length = 22 ∧
      getBuffer p =
        [80, 75, 84, byteOfInt p.power, byteOfInt (p.angle.tdiv 2),
         byteOfInt p.rotation, byteOfInt p.staticTilt, byteOfInt p.movingTilt,
         byteOfInt p.onOff, byteOfInt p.accX, byteOfInt p.accY]
        ++ p.slidersArray.map byteOfInt ++ [n / 256, n % 256]) ∧
    (getBuffer (mkPacket { angle := some 90 })).getD 4 0 = 45 ∧
    asSigned ((getBuffer (mkPacket { angle := some (-180) })).getD 4 0) = -90 ∧
    (getBuffer (mkPacket { duration := some 300 })).drop 20 = [1, 44] := by
  refine ⟨fun p n h9 hd hn => ⟨?_, ?_⟩, ?_, ?_, ?_⟩
  · rw [getBuffer_duration_nat p n hd]
    simp [h9]
  · rw [getBuffer_duration_nat p n hd]
    have hq : n / 256 % 256 = n / 256 := by omega
    rw [hq]
  · decide
  · decide
  · rw [getBuffer_duration_nat (mkPacket { duration := some 300 }) 300
        (by simp [mkPacket])]
    decide

/-- Witness for the layout theorem at the concrete frame with
duration 300. -/
theorem getBuffer_layout_witness :
    (mkPacket { duration := some 300 }).slidersArray.length = 9 ∧
    (mkPacket { duration := some 300 }).duration = ((300 : ℕ) : ℚ) ∧
    300 < 65536 ∧
    (getBuffer (mkPacket { duration := some 300 })).length = 22 :=
  ⟨by decide, by simp [mkPacket], by decide,
   (getBuffer_layout.1 (mkPacket { duration := some 300 }) 300 (by decide)
      (by simp [mkPacket]) (by decide)).1⟩

/-- C2 counterexample: `turnRight(90)` computes duration `3.25` s, and
the claim's `round(3.25 × 50) = 163`, but the generated frame's
duration field is exactly `162.5` (no rounding anywhere in the code),
which the wire encoding then truncates to low byte 162. -/
theorem turnRight90_duration_not_rounded :
    (cmdEnum (Cmd.turnRight 90)).2 = 13 / 4 ∧
    round ((cmdEnum (Cmd.turnRight 90)).2 * 50) = 163 ∧
    (cmdEnum (Cmd.turnRight 90)).1.duration = 325 / 2 ∧
    (cmdEnum (Cmd.turnRight 90)).1.duration ≠ 163 ∧
    (getBuffer (cmdEnum (Cmd.turnRight 90)).1).drop 20 = [0, 162] := by
  have hdur : (cmdEnum (Cmd.turnRight 90)).1.duration = 325 / 2 := by
    simp [cmdEnum, mkPacket, ROTATION_TIME]
    norm_num
  refine ⟨?_, ?_, hdur, ?_, ?_⟩
  · simp [cmdEnum, ROTATION_TIME]
    norm_num
  · have h2 : (cmdEnum (Cmd.turnRight 90)).2 = 13 / 4 := by
      simp [cmdEnum, ROTATION_TIME]
      norm_num
    rw [h2, round_eq]
    norm_num
  · rw [hdur]
    norm_num
  · have hb : (getBuffer (cmdEnum (Cmd.turnRight 90)).1).drop 20 =
        [byteOfRat ((cmdEnum (Cmd.turnRight 90)).1.duration / 256),
         byteOfRat (jsMod (cmdEnum (Cmd.turnRight 90)).1.duration 256)] := by
      rw [getBuffer]
      have hlen : (cmdEnum (Cmd.turnRight 90)).1.slidersArray.length = 9 := by
        decide
      simp [List.drop_append_eq_append_drop, hlen]
    rw [hb, hdur]
    have hhi : byteOfRat ((325 : ℚ) / 2 / 256) = 0 := by
      rw [byteOfRat, ratTrunc]
      rw [if_pos (by norm_num)]
      norm_num [byteOfInt]
    have hmod : jsMod ((325 : ℚ) / 2) 256 = 325 / 2 := by
      rw [jsMod, ratTrunc, if_pos (by norm_num)]
      norm_num
    have hlo : byteOfRat ((325 : ℚ) / 2) = 162 := by
      rw [byteOfRat, ratTrunc, if_pos (by norm_num)]
      norm_num [byteOfInt]
      decide
    rw [hmod, hhi, hlo]

/-- C2 amended: for every command except the raw `sendCustomPacket`
pass-through, the duration field of the generated frame equals the
command's duration in seconds multiplied by 50 — exactly, with no
rounding (so `turnRight(90)` carries `162.5`, not 163). -/
theorem dispatch_duration_field (c : Cmd)
    (h : ∀ p, c ≠ Cmd.sendCustomPacket p) :
    (cmdEnum c).1.duration = (cmdEnum c).2 * 50 := by
  cases c with
  | sendCustomPacket p => exact absurd rfl (h p)
  | rest t =>
      by_cases ht : 0 < t
      · simp [cmdEnum, ht, mkPacket]
      · simp [cmdEnum, ht, mkPacket]
  | goForward d => simp [cmdEnum, mkPacket]
  | goBack d => simp [cmdEnum, mkPacket]
  | turnLeft a => simp [cmdEnum, mkPacket]
  | turnRight a => simp [cmdEnum, mkPacket]
  | tiltForward t => simp [cmdEnum, mkPacket]
  | tiltBack t => simp [cmdEnum, mkPacket]
  | tiltLeft t => simp [cmdEnum, mkPacket]
  | tiltRight t => simp [cmdEnum, mkPacket]

/-- Witness for the duration-field theorem at `turnRight(90)`. -/
theorem dispatch_duration_field_witness :
    (∀ p, Cmd.turnRight 90 ≠ Cmd.sendCustomPacket p) ∧
    (cmdEnum (Cmd.turnRight 90)).1.duration = (cmdEnum (Cmd.turnRight 90)).2 * 50 :=
  ⟨fun p => by simp,
   dispatch_duration_field (Cmd.turnRight 90) (fun p => by simp)⟩

/-- C9: constructing a packet always yields a sliders array of length
exactly 9; a supplied array of any other length is replaced by the
default `[50, 25, 0, 0, 0, 0, 0, 0, 0]`. -/
theorem packet_sliders_length (params : PacketParams) :
    (mkPacket params).slidersArray.length = 9 ∧
    (∀ l, params.slidersArray = some l → l.length ≠ 9 →
      (mkPacket params).slidersArray = defaultSliders) := by
  refine ⟨?_, ?_⟩
  · simp only [mkPacket]
    cases params.slidersArray with
    | none => decide
    | some l =>
        by_cases hl : l.length = 9
        · simp [hl]
        · simp [hl, defaultSliders]
  · intro l hsl hne
    simp [mkPacket, hsl, hne]

/-- Witness for the sliders-length theorem at a length-3 array. -/
theorem packet_sliders_length_witness :
    ({ slidersArray := some [1, 2, 3] } : PacketParams).slidersArray
        = some [1, 2, 3] ∧
    ([1, 2, 3] : List ℤ).length ≠ 9 ∧
    (mkPacket { slidersArray := some [1, 2, 3] }).slidersArray.length = 9 ∧
    (mkPacket { slidersArray := some [1, 2, 3] }).slidersArray = defaultSliders :=
  ⟨rfl, by decide, (packet_sliders_length _).1,
   (packet_sliders_length { slidersArray := some [1, 2, 3] }).2 [1, 2, 3] rfl
     (by decide)⟩

/-- C5 counterexample: after `rest(0)` from the idle initial state, the
scheduler HAS armed a duration timer (the `duration >= 0` guard of
`processCmd` arms a `setTimeout` even for duration 0) and `robotState`
is still `running`, contrary to the claim that no timer is armed and the
phase returns to idle immediately. -/
theorem rest_zero_arms_timer :
    (apiRest 0 initState).timerArmed = true ∧
    (apiRest 0 initState).robotState = Phase.running := by
  decide

/-- C5 amended: `rest(0)` sets the neutral frame immediately, but arms a
zero-duration timer (which fires after the 0.1 s guard interval) and
stays `running` until that timer fires with an empty queue; at that
point the frame is neutral, the timer is gone, and the phase is idle. -/
theorem rest_zero_behavior :
    (apiRest 0 initState).currentPacket = neutralPacket ∧
    (apiRest 0 initState).timerArmed = true ∧
    (apiRest 0 initState).robotState = Phase.running ∧
    (apiRest 0 initState).cmdStack = [] ∧
    (step (apiRest 0 initState) Event.expire).robotState = Phase.idle ∧
    (step (apiRest 0 initState) Event.expire).currentPacket = neutralPacket ∧
    (step (apiRest 0 initState) Event.expire).timerArmed = false := by
  decide

/-- C3 counterexample: the encoder is not injective on valid frames —
the valid frames with angle 90 and angle 91 produce identical 22-byte
buffers (the angle byte stores the truncated half, `45` in both cases) —
so no decoder whatsoever can round-trip every valid frame. -/
theorem no_total_roundtrip :
    ¬ ∃ g : List ℕ → Packet,
        ∀ p : Packet, validPacket p → g (getBuffer p) = p := by
  rintro ⟨g, hg⟩
  have hA : validPacket (mkPacket { angle := some 90 }) :=
    ⟨by decide, by decide, by decide, by decide, by decide, by decide,
     by decide, by decide, by decide, by decide, by decide, by decide,
     by decide, by decide, by decide, 0, by decide, by simp [mkPacket]⟩
  have hB : validPacket (mkPacket { angle := some 91 }) :=
    ⟨by decide, by decide, by decide, by decide, by decide, by decide,
     by decide, by decide, by decide, by decide, by decide, by decide,
     by decide, by decide, by decide, 0, by decide, by simp [mkPacket]⟩
  have hEnc : getBuffer (mkPacket { angle := some 90 })
      = getBuffer (mkPacket { angle := some 91 }) := by
    rw [getBuffer_duration_nat (mkPacket { angle := some 90 }) 0 (by simp [mkPacket]),
        getBuffer_duration_nat (mkPacket { angle := some 91 }) 0 (by simp [mkPacket])]
    decide
  have hne : mkPacket { angle := some 90 } ≠ mkPacket { angle := some 91 } := by
    decide
  have e1 := hg _ hA
  have e2 := hg _ hB
  rw [hEnc] at e1
  exact hne (e1.symm.trans e2)

/-- C3 amended: the spec-modelled `decode` round-trips every valid frame
whose angle is even (odd angles cannot round-trip through any decoder,
since the angle byte stores the truncated half). -/
theorem decode_getBuffer (p : Packet) (hv : validPacket p)
    (heven : p.angle % 2 = 0) :
    decode (getBuffer p) = p := by
  obtain ⟨h1, h2, h3, h4, h5, h6, h7, h8, h9o, h10, h11, h12, h13,
    hlen, hsl, n, hn, hd⟩ := hv
  obtain ⟨pw, an, ro, st, mt, oo, ax, ay, sl, du⟩ := p
  simp only at h1 h2 h3 h4 h5 h6 h7 h8 h9o h10 h11 h12 h13 hlen hsl hd heven
  subst hd
  rcases sl with _ | ⟨s0, sl⟩
  · simp at hlen
  rcases sl with _ | ⟨s1, sl⟩
  · simp at hlen
  rcases sl with _ | ⟨s2, sl⟩
  · simp at hlen
  rcases sl with _ | ⟨s3, sl⟩
  · simp at hlen
  rcases sl with _ | ⟨s4, sl⟩
  · simp at hlen
  rcases sl with _ | ⟨s5, sl⟩
  · simp at hlen
  rcases sl with _ | ⟨s6, sl⟩
  · simp at hlen
  rcases sl with _ | ⟨s7, sl⟩
  · simp at hlen
  rcases sl with _ | ⟨s8, sl⟩
  · simp at hlen
  rcases sl with _ | ⟨s9, sl⟩
  swap
  · simp at hlen
  have hs0 := hsl s0 (by simp)
  have hs1 := hsl s1 (by simp)
  have hs2 := hsl s2 (by simp)
  have hs3 := hsl s3 (by simp)
  have hs4 := hsl s4 (by simp)
  have hs5 := hsl s5 (by simp)
  have hs6 := hsl s6 (by simp)
  have hs7 := hsl s7 (by simp)
  have hs8 := hsl s8 (by simp)
  rw [getBuffer_duration_nat _ n rfl]
  obtain ⟨k, hk⟩ : (2 : ℤ) ∣ an := Int.dvd_of_emod_eq_zero heven
  subst hk
  rw [Int.mul_tdiv_cancel_left k (by norm_num)]
  simp only [List.cons_append, List.nil_append, List.map_cons, List.map_nil]
  simp only [decode, Packet.mk.injEq]
  refine ⟨?_, ?_, ?_, ?_, ?_, ?_, ?_, ?_, ?_, ?_⟩
  · simp
    exact byteOfInt_int_cast pw h1 (by omega)
  · simp
    rw [asSigned_byteOfInt k (by omega) (by omega)]
  · simp
    exact asSigned_byteOfInt ro (by omega) (by omega)
  · simp
    rcases h7 with rfl | rfl <;> decide
  · simp
    rcases h8 with rfl | rfl <;> decide
  · simp
    rcases h9o with rfl | rfl <;> decide
  · simp
    exact asSigned_byteOfInt ax (by omega) (by omega)
  · simp
    exact asSigned_byteOfInt ay (by omega) (by omega)
  · simp
    refine ⟨?_, ?_, ?_, ?_, ?_, ?_, ?_, ?_, ?_⟩
    · exact byteOfInt_int_cast s0 hs0.1 (by omega)
    · exact byteOfInt_int_cast s1 hs1.1 (by omega)
    · exact byteOfInt_int_cast s2 hs2.1 (by omega)
    · exact byteOfInt_int_cast s3 hs3.1 (by omega)
    · exact byteOfInt_int_cast s4 hs4.1 (by omega)
    · exact byteOfInt_int_cast s5 hs5.1 (by omega)
    · exact byteOfInt_int_cast s6 hs6.1 (by omega)
    · exact byteOfInt_int_cast s7 hs7.1 (by omega)
    · exact byteOfInt_int_cast s8 hs8.1 (by omega)
  · simp
    norm_cast
    omega

/-- Witness for the round-trip theorem at the valid even-angle frame
`{angle: 90}`. -/
theorem decode_getBuffer_witness :
    validPacket (mkPacket { angle := some 90 }) ∧
    (mkPacket { angle := some 90 }).angle % 2 = 0 ∧
    decode (getBuffer (mkPacket { angle := some 90 }))
      = mkPacket { angle := some 90 } := by
  have hA : validPacket (mkPacket { angle := some 90 }) :=
    ⟨by decide, by decide, by decide, by decide, by decide, by decide,
     by decide, by decide, by decide, by decide, by decide, by decide,
     by decide, by decide, by decide, 0, by decide, by simp [mkPacket]⟩
  exact ⟨hA, by decide, decode_getBuffer _ hA (by decide)⟩

theorem dispatchOne_trace (s : SchedState) :
    (dispatchOne s).dispatched ++ (dispatchOne s).cmdStack
      = s.dispatched ++ s.cmdStack ∧
    (dispatchOne s).enqueued = s.enqueued := by
  cases h : s.cmdStack with
  | nil => simp [dispatchOne, h]
  | cons c rest => simp [dispatchOne, h]

theorem step_trace_inv (s : SchedState) (e : Event)
    (h : s.dispatched ++ s.cmdStack = s.enqueued) :
    (step s e).dispatched ++ (step s e).cmdStack = (step s e).enqueued := by
  cases e with
  | push c =>
      simp only [step]
      split
      · rw [(dispatchOne_trace _).1, (dispatchOne_trace _).2]
        simp only []
        rw [← List.append_assoc, h]
      · simp only []
        rw [← List.append_assoc, h]
  | expire =>
      simp only [step]
      split
      · split
        · rename_i hempty
          simp only [] at hempty ⊢
          simpa [hempty] using h
        · rw [(dispatchOne_trace _).1, (dispatchOne_trace _).2]
          exact h
      · exact h

theorem run_trace_inv (evs : List Event) (s : SchedState)
    (h : s.dispatched ++ s.cmdStack = s.enqueued) :
    (run s evs).dispatched ++ (run s evs).cmdStack = (run s evs).enqueued := by
  induction evs generalizing s with
  | nil => exact h
  | cons e tl ih => exact ih (step s e) (step_trace_inv s e h)

/-- C4: dispatch is strict FIFO. In every state reachable from the
initial state, the dispatch history followed by the pending queue IS the
enqueue history (commands are consumed in submission order, with no
reordering); pushing while the phase is `running` only appends (nothing
is dispatched, the timer and frame are untouched); and when the running
command's timer expires with a non-empty queue, exactly the head of the
queue is dispatched next. -/
theorem fifo_order :
    (∀ evs : List Event,
      (run initState evs).dispatched ++ (run initState evs).cmdStack
        = (run initState evs).enqueued) ∧
    (∀ (s : SchedState) (c : Cmd), s.robotState = Phase.running →
      (step s (.push c)).dispatched = s.dispatched ∧
      (step s (.push c)).cmdStack = s.cmdStack ++ [c] ∧
      (step s (.push c)).robotState = Phase.running ∧
      (step s (.push c)).timerArmed = s.timerArmed ∧
      (step s (.push c)).currentPacket = s.currentPacket) ∧
    (∀ (s : SchedState) (c : Cmd) (cs : List Cmd), s.timerArmed = true →
      s.cmdStack = c :: cs →
      (step s .expire).dispatched = s.dispatched ++ [c] ∧
      (step s .expire).cmdStack = cs) := by
  refine ⟨fun evs => run_trace_inv evs initState rfl, ?_, ?_⟩
  · intro s c hrun
    simp [step, hrun]
  · intro s c cs ht hstack
    simp [step, ht, hstack, dispatchOne]

/-- Witness for the FIFO theorem: a push in a concrete running state
only appends, and a concrete expiry dispatches the queue head. -/
theorem fifo_order_witness :
    (({ robotState := Phase.running, cmdStack := [], currentPacket := neutralPacket,
        timerArmed := true, dispatched := [], enqueued := [] } : SchedState).robotState
      = Phase.running) ∧
    (step { robotState := Phase.running, cmdStack := [], currentPacket := neutralPacket,
            timerArmed := true, dispatched := [], enqueued := [] }
        (.push (Cmd.goForward 1))).dispatched = [] ∧
    (step { robotState := Phase.running, cmdStack := [Cmd.goBack 2],
            currentPacket := neutralPacket, timerArmed := true, dispatched := [],
            enqueued := [] } .expire).dispatched = [Cmd.goBack 2] :=
  ⟨rfl,
   ((fifo_order.2.1 _ (Cmd.goForward 1) rfl).1),
   by
    have h := (fifo_order.2.2
      { robotState := Phase.running, cmdStack := [Cmd.goBack 2],
        currentPacket := neutralPacket, timerArmed := true, dispatched := [],
        enqueued := [] } (Cmd.goBack 2) [] rfl rfl).1
    simpa using h⟩

/-- The command carried by a `push` event, if any. -/
def eventCmd : Event → Option Cmd
  | .push c => some c
  | .expire => none

theorem stuck_step (s : SchedState) (e : Event)
    (h1 : s.robotState = Phase.running) (h2 : s.timerArmed = false) :
    (step s e).robotState = Phase.running ∧
    (step s e).timerArmed = false ∧
    (step s e).dispatched = s.dispatched ∧
    (step s e).cmdStack = s.cmdStack ++ (eventCmd e).toList := by
  cases e with
  | push c => simp [step, h1, h2, eventCmd]
  | expire => simp [step, h1, h2, eventCmd]

theorem stuck_run (evs : List Event) (s : SchedState)
    (h1 : s.robotState = Phase.running) (h2 : s.timerArmed = false) :
    (run s evs).robotState = Phase.running ∧
    (run s evs).timerArmed = false ∧
    (run s evs).dispatched = s.dispatched ∧
    (run s evs).cmdStack = s.cmdStack ++ evs.filterMap eventCmd := by
  induction evs generalizing s with
  | nil => exact ⟨h1, h2, rfl, by simp [run]⟩
  | cons e tl ih =>
      obtain ⟨a, b, c, d⟩ := stuck_step s e h1 h2
      obtain ⟨a2, b2, c2, d2⟩ := ih (step s e) a b
      refine ⟨a2, b2, c2.trans c, ?_⟩
      show (run (step s e) tl).cmdStack = s.cmdStack ++ List.filterMap eventCmd (e :: tl)
      rw [d2, d]
      cases e <;> simp [eventCmd]

/-- C10: `turnLeft(-90)` passes through the unvalidated public API and
computes a negative duration, so its dispatch sets the current frame
(rotation -100) but the `duration >= 0` guard arms no timer while
`robotState` stays `running`; since `runStack` only dispatches when
idle and a timer expiry needs an armed timer, every event thereafter
leaves the scheduler running with nothing dispatched: commands pushed
afterwards accumulate in the queue forever. -/
theorem negative_angle_stalls_scheduler :
    (step initState (.push (Cmd.turnLeft (-90)))).robotState = Phase.running ∧
    (step initState (.push (Cmd.turnLeft (-90)))).timerArmed = false ∧
    (step initState (.push (Cmd.turnLeft (-90)))).currentPacket.rotation = -100 ∧
    (step initState (.push (Cmd.turnLeft (-90)))).dispatched
      = [Cmd.turnLeft (-90)] ∧
    ∀ evs : List Event,
      (run (step initState (.push (Cmd.turnLeft (-90)))) evs).robotState
        = Phase.running ∧
      (run (step initState (.push (Cmd.turnLeft (-90)))) evs).timerArmed = false ∧
      (run (step initState (.push (Cmd.turnLeft (-90)))) evs).dispatched
        = [Cmd.turnLeft (-90)] ∧
      (run (step initState (.push (Cmd.turnLeft (-90)))) evs).cmdStack
        = evs.filterMap eventCmd := by
  have hrun : (step initState (.push (Cmd.turnLeft (-90)))).robotState
      = Phase.running := by
    simp [step, initState, dispatchOne]
  have htimer : (step initState (.push (Cmd.turnLeft (-90)))).timerArmed = false := by
    simp only [step, initState, dispatchOne]
    norm_num [cmdEnum, ROTATION_TIME]
  have hdisp : (step initState (.push (Cmd.turnLeft (-90)))).dispatched
      = [Cmd.turnLeft (-90)] := by
    simp [step, initState, dispatchOne]
  have hstack : (step initState (.push (Cmd.turnLeft (-90)))).cmdStack = [] := by
    simp [step, initState, dispatchOne]
  refine ⟨hrun, htimer, by simp [step, initState, dispatchOne, cmdEnum, mkPacket],
    hdisp, fun evs => ?_⟩
  obtain ⟨a, b, c, d⟩ := stuck_run evs _ hrun htimer
  exact ⟨a, b, c.trans hdisp, by rw [d, hstack]; simp⟩

theorem push_enqueued (s : SchedState) (c : Cmd) :
    (step s (.push c)).enqueued = s.enqueued ++ [c] := by
  simp only [step]
  split
  · rw [(dispatchOne_trace _).2]
  · rfl

/-- C6 counterexample: `tiltForward(-1)` and `rest(-1)` pass the public
API unchecked and are enqueued (and immediately dispatched from idle),
even though their durations are negative — only `goForward` and
`goBack` validate their argument. -/
theorem tilt_rest_unvalidated :
    (apiTiltForward (-1) initState).enqueued = [Cmd.tiltForward (-1)] ∧
    (apiRest (-1) initState).enqueued = [Cmd.rest (-1)] ∧
    (apiTiltForward (-1) initState).enqueued ≠ initState.enqueued := by
  refine ⟨?_, ?_, ?_⟩
  · rw [apiTiltForward, push_enqueued]
    simp [initState]
  · rw [apiRest, if_neg (by norm_num), push_enqueued]
    simp [initState]
  · rw [apiTiltForward, push_enqueued]
    simp [initState]

/-- C6 amended: only `goForward` and `goBack` validate their argument
(a non-positive distance is a warned no-op and nothing is enqueued);
the four tilt operations and `rest` perform no validation and always
enqueue their command, non-positive durations included (`rest`
normalizes only falsy arguments to 0). -/
theorem arg_validation (d : ℚ) (s : SchedState) (hd : d ≤ 0) :
    apiGoForward d s = s ∧
    apiGoBack d s = s ∧
    (apiTiltForward d s).enqueued = s.enqueued ++ [Cmd.tiltForward d] ∧
    (apiTiltBack d s).enqueued = s.enqueued ++ [Cmd.tiltBack d] ∧
    (apiTiltLeft d s).enqueued = s.enqueued ++ [Cmd.tiltLeft d] ∧
    (apiTiltRight d s).enqueued = s.enqueued ++ [Cmd.tiltRight d] ∧
    (d ≠ 0 → (apiRest d s).enqueued = s.enqueued ++ [Cmd.rest d]) := by
  have hng : ¬(0 < d) := not_lt.mpr hd
  refine ⟨by rw [apiGoForward, if_neg hng], by rw [apiGoBack, if_neg hng],
    push_enqueued s _, push_enqueued s _, push_enqueued s _, push_enqueued s _,
    fun h0 => ?_⟩
  rw [apiRest, if_neg h0, push_enqueued]

/-- Witness for the validation theorem at distance/duration -1. -/
theorem arg_validation_witness :
    ((-1 : ℚ) ≤ 0) ∧
    apiGoForward (-1) initState = initState ∧
    (apiTiltForward (-1) initState).enqueued
      = initState.enqueued ++ [Cmd.tiltForward (-1)] :=
  ⟨by norm_num,
   (arg_validation (-1) initState (by norm_num)).1,
   (arg_validation (-1) initState (by norm_num)).2.2.1⟩

/-- C7 counterexample: calling `connect` on a fresh (idle, disconnected)
handle starts the 100 ms streaming interval immediately, before any
connection outcome; after a transport error or timeout the handler has
changed nothing, so the handle is still not connected yet the streaming
timer keeps running — the timer is not started "only on successful
connection". -/
theorem connect_streams_unconditionally :
    (connectTCP ⟨false, false, none, []⟩).intervalSender = true ∧
    (connectTCP ⟨false, false, none, []⟩).connected = false ∧
    onConnectError (connectTCP ⟨false, false, none, []⟩)
      = connectTCP ⟨false, false, none, []⟩ := by
  decide

/-- C7 amended: `connect()` is a no-op when already connected; otherwise
it configures the 5000 ms socket timeout and starts the 100 ms
streaming interval immediately, regardless of the eventual outcome; the
timeout/error handler only logs and changes no state (so a failed
attempt leaves the handle disconnected but still streaming); the
success handler clears the socket timeout, marks the handle connected,
and clears the command stack. -/
theorem connect_behavior (s : ConnState) :
    (s.connected = true → connectTCP s = s) ∧
    (s.connected = false →
      (connectTCP s).socketTimeoutMs = some 5000 ∧
      (connectTCP s).intervalSender = true ∧
      (connectTCP s).connected = false ∧
      (connectTCP s).cmdStack = s.cmdStack) ∧
    onConnectError s = s ∧
    (onConnectSuccess s).connected = true ∧
    (onConnectSuccess s).socketTimeoutMs = some 0 ∧
    (onConnectSuccess s).cmdStack = [] := by
  refine ⟨fun h => by simp [connectTCP, h], fun h => ?_, rfl, rfl, rfl, rfl⟩
  rw [connectTCP, if_neg (by simp [h])]
  exact ⟨rfl, rfl, h, rfl⟩

/-- Witness for the connect theorem: an already-connected handle is
untouched, and a fresh handle gets the streaming timer started at
once. -/
theorem connect_behavior_witness :
    connectTCP ⟨true, false, none, []⟩ = ⟨true, false, none, []⟩ ∧
    (connectTCP ⟨false, false, none, []⟩).intervalSender = true :=
  ⟨(connect_behavior ⟨true, false, none, []⟩).1 rfl,
   ((connect_behavior ⟨false, false, none, []⟩).2.1 rfl).2.1⟩

/-- C8 counterexample: push `goForward(1)` on an idle connected
`part_000` engine — its 13 s duration arms the command-duration
`setTimeout` — then call `disconnect`: the duration timer is still
armed afterwards, because nothing in the repository ever calls
`clearTimeout`. -/
theorem disconnect_leaves_duration_timer :
    (nodePush (NCmd.goForward 1)
      ⟨true, Phase.idle, [], neutralNode, true, false, false, []⟩).durationTimer
        = true ∧
    (nodeDisconnect (nodePush (NCmd.goForward 1)
      ⟨true, Phase.idle, [], neutralNode, true, false, false, []⟩)).durationTimer
        = true := by
  have h : (nodePush (NCmd.goForward 1)
      ⟨true, Phase.idle, [], neutralNode, true, false, false, []⟩).durationTimer
        = true := by
    simp only [nodePush, nodeDispatchOne]
    norm_num [nodeCmdEnum, MAX_SPEED]
  exact ⟨h, h⟩

/-- C8 amended: `disconnect` empties the queue, stops both
`setInterval` handles, resets the current frame to neutral, writes one
final neutral frame to the socket, marks the handle disconnected and
idle — but the pending command-duration `setTimeout` is NOT cancelled
(the repository never calls `clearTimeout`), so it survives the
disconnect and will still fire later. -/
theorem nodeDisconnect_behavior (s : NodeState) :
    (nodeDisconnect s).cmdStack = [] ∧
    (nodeDisconnect s).intervalSender = false ∧
    (nodeDisconnect s).intervalSetter = false ∧
    (nodeDisconnect s).currentPacket = neutralNode ∧
    (nodeDisconnect s).sent = s.sent ++ [neutralNode] ∧
    (nodeDisconnect s).connected = false ∧
    (nodeDisconnect s).robotState = Phase.idle ∧
    (nodeDisconnect s).durationTimer = s.durationTimer :=
  ⟨rfl, rfl, rfl, rfl, rfl, rfl, rfl, rfl⟩
